import Mathlib

/-!
Shallow embedding of the mail-session and message-parsing layer of the
`go_email` repository (`MailClient.py` and `mail_api.py`), together with
theorems settling the specification claims about it.

Modelling conventions:
* byte strings are `List Nat`;
* `email.header.decode_header` output is a list of fragments, each either
  raw bytes with an optional declared charset or an already-plain string;
* charset decoding (Python's `bytes.decode`) is an abstract parameter
  `dec : CharsetDec`, returning `none` when decoding raises;
* raising Python code is modelled with `Except` / explicit error results;
* the IMAP/SMTP servers are parameters recording whether connect/login
  succeeds and what each fetch returns;
* cleanup behaviour is made observable by returning, next to the result,
  the number of `logout`/`quit` calls the operation body performs.
-/

set_option linter.unusedVariables false

namespace GoEmail

/-- Byte strings (Python `bytes`) as lists of byte values. -/
abbrev Bytes := List Nat

/-- One fragment of `email.header.decode_header`'s result: raw bytes with
an optional declared charset, or an already-decoded plain string. -/
inductive FragData
  | bytes (b : Bytes)
  | str (s : String)
deriving DecidableEq

/-- A `(data, charset)` pair as returned by `decode_header`. -/
structure Fragment where
  data : FragData
  charset : Option String
deriving DecidableEq

/-- Abstract charset decoder standing for Python's `bytes.decode`;
`none` models a raised `UnicodeDecodeError`/`LookupError`. -/
abbrev CharsetDec := String → Bytes → Option String

/-- Python exceptions that the embedded code can raise. -/
inductive MailError
  | connectionError
  | protocolError
  | fetchError
  | typeError
  | indexError
  | decodeError
deriving DecidableEq

/-- The per-fragment decode the source performs:
`subject.decode(encoding if encoding else 'utf-8')` when the fragment is
bytes, the string itself otherwise. -/
def decodeFragment (dec : CharsetDec) : Fragment → Option String
  | ⟨FragData.bytes b, some enc⟩ => dec enc b
  | ⟨FragData.bytes b, none⟩ => dec "utf-8" b
  | ⟨FragData.str s, _⟩ => some s

/-- Embedding of `decode_header(value)[0]` followed by the charset decode of that first
fragment; `[0]` on an empty fragment list raises `IndexError`. -/
def decodeFirstFragment (dec : CharsetDec) : List Fragment → Except MailError String
  | [] => Except.error MailError.indexError
  | f :: _ =>
      match decodeFragment dec f with
      | some s => Except.ok s
      | none => Except.error MailError.decodeError

/-- The subject-decoding step shared by `list_emails`, `list_headers` and
the `/listmails` generator: `msg['Subject']` is `None` when the header is
absent, on which `decode_header` raises `TypeError`; otherwise only the
first fragment of the decoded header is used. -/
def extractSubject (dec : CharsetDec) : Option (List Fragment) → Except MailError String
  | none => Except.error MailError.typeError
  | some frags => decodeFirstFragment dec frags

/-- Header decoder modelled from the spec's words: detect the encoded
words, decode each with its declared charset (falling back to UTF-8 when
none is declared), and yield the plain string of the whole value.  Used
only to compare with the source's first-fragment-only behaviour. -/
def specHeaderDecode (dec : CharsetDec) (frags : List Fragment) : Except MailError String :=
  match frags.mapM (decodeFragment dec) with
  | some l => Except.ok (String.join l)
  | none => Except.error MailError.decodeError

/-- A parsed message as far as the summary code reads it: the raw
`decode_header` fragments of its Subject (absent when the header is
missing) and the `From`/`Date` header values. -/
structure RawMsg where
  subject : Option (List Fragment)
  from_ : Option String
  date : Option String
deriving DecidableEq

/-- Outcome of one `mail.fetch` call: the call raises, yields falsy data
(`msg_data[0][1]` empty), or yields a message. -/
inductive Fetched
  | raises
  | empty
  | ok (m : RawMsg)
deriving DecidableEq

/-- The IMAP server seen by `MailClient.list_emails`/`list_headers`:
whether connect+login+select+search succeed, the identifiers the search
returns (in the server's ascending arrival order), and what fetching each
identifier yields. -/
structure ImapServer where
  connectOk : Bool
  ids : List String
  fetch : String → Fetched

/-- Python `xs[-limit:]` for a non-negative `limit`: `-0 == 0`, so limit 0
yields the whole list; a positive limit keeps the last `limit` elements. -/
def sliceLast (limit : Nat) (xs : List α) : List α :=
  if limit = 0 then xs else xs.drop (xs.length - limit)

/-- One entry of `MailClient.list_emails`'s result. -/
structure Summary where
  subject : String
  from_ : Option String
  date : Option String
deriving DecidableEq

/-- The body of one iteration of `list_emails`'s loop: fetch the message
(raising on a failed or empty fetch, since `message_from_bytes` is applied
unconditionally), decode the subject, and build the summary record. -/
def fetchSummary (dec : CharsetDec) (srv : ImapServer) (num : String) :
    Except MailError Summary :=
  match srv.fetch num with
  | Fetched.raises => Except.error MailError.fetchError
  | Fetched.empty => Except.error MailError.typeError
  | Fetched.ok m =>
      match extractSubject dec m.subject with
      | Except.error e => Except.error e
      | Except.ok subject => Except.ok ⟨subject, m.from_, m.date⟩

/-- The `for num in email_ids[-limit:]` loop of `list_emails`: there is no
per-message handler, so the first exception aborts the whole loop. -/
def runBatch (dec : CharsetDec) (srv : ImapServer) : List String → Except MailError (List Summary)
  | [] => Except.ok []
  | num :: rest =>
      match fetchSummary dec srv num with
      | Except.error e => Except.error e
      | Except.ok s =>
          match runBatch dec srv rest with
          | Except.error e => Except.error e
          | Except.ok r => Except.ok (s :: r)

/-- Embedding of `MailClient.list_emails`: connect, select, search, iterate over
`email_ids[-limit:]`, then `self.imap.logout()` and return.  The second
component counts the `logout` calls the method body performs: the logout
line is only reached when the whole loop succeeds. -/
def list_emails (dec : CharsetDec) (srv : ImapServer) (limit : Nat) :
    Except MailError (List Summary) × Nat :=
  if srv.connectOk then
    match runBatch dec srv (sliceLast limit srv.ids) with
    | Except.ok es => (Except.ok es, 1)
    | Except.error e => (Except.error e, 0)
  else (Except.error MailError.connectionError, 0)

/-- One entry of `MailClient.list_headers`'s result (it additionally
records `num.decode()` as `email_id`). -/
structure HeaderSummary where
  email_id : String
  subject : String
  from_ : Option String
  date : Option String
deriving DecidableEq

/-- One iteration of `list_headers`'s loop. -/
def fetchHeaderSummary (dec : CharsetDec) (srv : ImapServer) (num : String) :
    Except MailError HeaderSummary :=
  match srv.fetch num with
  | Fetched.raises => Except.error MailError.fetchError
  | Fetched.empty => Except.error MailError.typeError
  | Fetched.ok m =>
      match extractSubject dec m.subject with
      | Except.error e => Except.error e
      | Except.ok subject => Except.ok ⟨num, subject, m.from_, m.date⟩

/-- The loop of `list_headers`; like `list_emails` it has no per-message
handler. -/
def runHeaderBatch (dec : CharsetDec) (srv : ImapServer) :
    List String → Except MailError (List HeaderSummary)
  | [] => Except.ok []
  | num :: rest =>
      match fetchHeaderSummary dec srv num with
      | Except.error e => Except.error e
      | Except.ok s =>
          match runHeaderBatch dec srv rest with
          | Except.error e => Except.error e
          | Except.ok r => Except.ok (s :: r)

/-- Embedding of `MailClient.list_headers`, with the same logout accounting as
`list_emails`. -/
def list_headers (dec : CharsetDec) (srv : ImapServer) (limit : Nat) :
    Except MailError (List HeaderSummary) × Nat :=
  if srv.connectOk then
    match runHeaderBatch dec srv (sliceLast limit srv.ids) with
    | Except.ok es => (Except.ok es, 1)
    | Except.error e => (Except.error e, 0)
  else (Except.error MailError.connectionError, 0)

/-- Returns `true` on an ok result; used to state which paths reach the logout. -/
def isOkE : Except ε α → Bool
  | Except.ok _ => true
  | Except.error _ => false

/-- The SMTP server seen by `MailClient.send_email`: whether
`SMTP()+ehlo+starttls+login` succeeds and whether `sendmail` is accepted. -/
structure SmtpServer where
  connectOk : Bool
  sendOk : Bool
deriving DecidableEq

/-- Result of the `/sendmail` endpoint. -/
inductive SendOutcome
  | missingFields
  | sent
  | failed (e : MailError)
deriving DecidableEq

/-- Python truthiness of `data.get(...)`: absent or empty string is falsy. -/
def truthy : Option String → Bool
  | none => false
  | some s => !s.isEmpty

/-- The `/sendmail` endpoint followed by `MailClient.send_email`.  Returns
`(outcome, SMTP connection attempts, quit calls)`: validation failure
returns 400 before any client call; `send_email` has no `finally`, so
`self.smtp.quit()` runs only when `sendmail` succeeded. -/
def send_mail (srv : SmtpServer) (to_ subject body : Option String) :
    SendOutcome × Nat × Nat :=
  if truthy to_ && truthy subject && truthy body then
    if srv.connectOk then
      if srv.sendOk then (SendOutcome.sent, 1, 1)
      else (SendOutcome.failed MailError.protocolError, 1, 0)
    else (SendOutcome.failed MailError.connectionError, 1, 0)
  else (SendOutcome.missingFields, 0, 0)

/-- The IMAP server seen by the `/listmails` generator: connect covers
`IMAP4_SSL + login + select('inbox')` (all before the first yield), and
the search afterwards may fail separately (it runs after `'['` was
yielded). -/
structure StreamServer where
  connectOk : Bool
  searchOk : Bool
  ids : List String
  fetch : String → Fetched

/-- One summary object yielded by the `/listmails` generator. -/
structure EmailInfo where
  email_id : String
  subject : String
  from_ : Option String
  date : Option String
deriving DecidableEq

/-- One element yielded by the `/listmails` generator. -/
inductive StreamItem
  | openBracket
  | comma
  | closeBracket
  | info (i : EmailInfo)
  | errorItem (e : MailError)
deriving DecidableEq

/-- The guarded per-message body of the generator's loop: a failed or
empty fetch, or a raising subject decode, is swallowed (`continue`), so it
produces no summary. -/
def genItem (dec : CharsetDec) (srv : StreamServer) (eid : String) : Option EmailInfo :=
  match srv.fetch eid with
  | Fetched.raises => none
  | Fetched.empty => none
  | Fetched.ok m =>
      match extractSubject dec m.subject with
      | Except.error _ => none
      | Except.ok subject => some ⟨eid, subject, m.from_, m.date⟩

/-- The generator's `for eid in email_ids` loop: the comma is yielded
before the guarded body, and `first` is cleared even when the body fails. -/
def genLoop (dec : CharsetDec) (srv : StreamServer) : List String → Bool → List StreamItem
  | [], _ => []
  | eid :: rest, first =>
      (if first then [] else [StreamItem.comma]) ++
        (match genItem dec srv eid with
         | some i => [StreamItem.info i]
         | none => []) ++
        genLoop dec srv rest false

/-- The `/listmails` generator: a connect/login/select failure occurs
before anything was yielded and the outer handler yields a single error
element; a search failure occurs after `'['`; otherwise the loop runs over
`email_ids[-10:]`.  The `limit` request parameter is parsed but never used
by the generator. -/
def generate (dec : CharsetDec) (srv : StreamServer) (limit : Nat) : List StreamItem :=
  if srv.connectOk then
    if srv.searchOk then
      StreamItem.openBracket ::
        (genLoop dec srv (sliceLast 10 srv.ids) true ++ [StreamItem.closeBracket])
    else [StreamItem.openBracket, StreamItem.errorItem MailError.protocolError]
  else [StreamItem.errorItem MailError.connectionError]

/-- The summary objects among the yielded elements. -/
def streamInfos : List StreamItem → List EmailInfo
  | [] => []
  | StreamItem.info i :: rest => i :: streamInfos rest
  | StreamItem.openBracket :: rest => streamInfos rest
  | StreamItem.comma :: rest => streamInfos rest
  | StreamItem.closeBracket :: rest => streamInfos rest
  | StreamItem.errorItem _ :: rest => streamInfos rest

/-- One MIME part as `msg.walk()` yields it to the attachment code:
`get_content_maintype()`, `get_content_type()`, presence of a
`Content-Disposition` header, the (still encoded) filename, and
`get_payload(decode=True)` (`none` when falsy). -/
structure MimePart where
  maintype : String
  contentType : String
  hasDisposition : Bool
  filename : Option (List Fragment)
  payload : Option Bytes
deriving DecidableEq

/-- Embedding of `len(part.get_payload(decode=True))` with the source's
`if ... else 0` guard. -/
def payloadSize (p : MimePart) : Nat :=
  match p.payload with
  | some d => d.length
  | none => 0

/-- Embedding of `round(n / d, 2)` reported in exact hundredths: round-half-to-even
of `n * 100 / d`, matching Python's `round`. -/
def roundHundredths (n d : Nat) : Nat :=
  let q := n * 100 / d
  let r := n * 100 % d
  if 2 * r < d then q
  else if d < 2 * r then q + 1
  else if q % 2 = 0 then q else q + 1

/-- The `size_kb` the attachment manifest reports for a decoded payload of
`size` bytes, in hundredths of a kilobyte (`1206` stands for `12.06`). -/
def size_kb_of (size : Nat) : Nat := roundHundredths size 1024

/-- One entry of the `/list_attachments` manifest; `size_kb` is in
hundredths of a kilobyte. -/
structure AttachmentInfo where
  filename : String
  size_kb : Nat
  mime_type : String
deriving DecidableEq

/-- The server seen by `/list_attachments` and `/download_attachment`:
whether `IMAP4_SSL + login + select` succeeds, and the parts of the
message each identifier fetches to (`none` when the fetch raises or
yields no data). -/
structure MsgServer where
  connectOk : Bool
  fetchMsg : String → Option (List MimePart)

/-- The `msg.walk()` loop of `/list_attachments`: skip multipart
containers and parts without a `Content-Disposition` or filename; decode
the first fragment of the filename (a raising decode aborts the request),
sanitize it, and record name, size and MIME type. -/
def attachmentEntries (sec : String → String) (dec : CharsetDec) :
    List MimePart → Except MailError (List AttachmentInfo)
  | [] => Except.ok []
  | p :: rest =>
      if p.maintype = "multipart" then attachmentEntries sec dec rest
      else if p.hasDisposition then
        match p.filename with
        | none => attachmentEntries sec dec rest
        | some frags =>
            match decodeFirstFragment dec frags with
            | Except.error e => Except.error e
            | Except.ok nm =>
                match attachmentEntries sec dec rest with
                | Except.error e => Except.error e
                | Except.ok r =>
                    Except.ok (⟨sec nm, size_kb_of (payloadSize p), p.contentType⟩ :: r)
      else attachmentEntries sec dec rest

/-- Result of the `/list_attachments` endpoint. -/
inductive AttListResult
  | missingId
  | ok (l : List AttachmentInfo)
  | err (e : MailError)
deriving DecidableEq

/-- Embedding of `/list_attachments`: 400 before connecting when `email_id` is missing;
otherwise the body runs under `try/except` with `mail.logout()` in a
`finally` (the second component counts logout calls on an opened
connection — when the connect itself raised, no connection exists and the
`finally`'s own failure is swallowed). -/
def list_attachments (sec : String → String) (dec : CharsetDec) (srv : MsgServer)
    (email_id : Option String) : AttListResult × Nat :=
  match email_id with
  | none => (AttListResult.missingId, 0)
  | some eid =>
      if eid.isEmpty then (AttListResult.missingId, 0)
      else if srv.connectOk then
        match srv.fetchMsg eid with
        | none => (AttListResult.err MailError.fetchError, 1)
        | some parts =>
            match attachmentEntries sec dec parts with
            | Except.ok l => (AttListResult.ok l, 1)
            | Except.error e => (AttListResult.err e, 1)
      else (AttListResult.err MailError.connectionError, 0)

/-- The process-wide `attachments_cache` dict: association list from the
string key `f"{email_id}_{filename}"` to the stored bytes; a new entry is
prepended, and `lookup` finds the newest one. -/
abbrev AttachmentsCache := List (String × Bytes)

/-- Result sent back by `/download_attachment` (only the content bytes of
the file response; the MIME and download-name arguments of `send_file` are
recorded separately in `DlOutput`). -/
inductive DlResponse
  | missingParams
  | file (data : Bytes)
  | fetchFailed
  | emptyAttachment
  | notFound
  | err (e : MailError)
deriving DecidableEq

/-- Observable outcome of one `/download_attachment` request: the
response, the cache after the request, how many IMAP fetches ran, the
keys used for cache lookups and stores, and the `download_name`/`mimetype`
arguments passed to `send_file` (the cache-hit path passes no mimetype). -/
structure DlOutput where
  response : DlResponse
  cache' : AttachmentsCache
  fetchCount : Nat
  lookupKeys : List String
  storeKeys : List String
  downloadName : Option String
  mimeArg : Option String
deriving DecidableEq

/-- Result of the `msg.walk()` loop of `/download_attachment` up to the
first part whose decoded, sanitized filename equals the requested one. -/
inductive WalkResult
  | found (p : MimePart)
  | absent
  | raised (e : MailError)
deriving DecidableEq

/-- The `msg.walk()` loop of `/download_attachment`: skip multiparts and
parts without disposition or filename; decode the first fragment of each
filename (a raising decode aborts the request), sanitize it, and stop at
the first part matching the requested filename. -/
def findPart (sec : String → String) (dec : CharsetDec) (fn : String) :
    List MimePart → WalkResult
  | [] => WalkResult.absent
  | p :: rest =>
      if p.maintype = "multipart" then findPart sec dec fn rest
      else if p.hasDisposition then
        match p.filename with
        | none => findPart sec dec fn rest
        | some frags =>
            match decodeFirstFragment dec frags with
            | Except.error e => WalkResult.raised e
            | Except.ok nm =>
                if sec nm = fn then WalkResult.found p
                else findPart sec dec fn rest
      else findPart sec dec fn rest

/-- Embedding of `/download_attachment`: 400 when a parameter is missing; otherwise the
cache is probed with the raw key `f"{email_id}_{filename}"` and a hit is
served without connecting; on a miss the message is fetched, the matching
part's decoded payload is stored under the same raw key and sent with
`download_name=filename`. -/
def download_attachment (sec : String → String) (dec : CharsetDec) (srv : MsgServer)
    (cache : AttachmentsCache) (email_id filename : Option String) : DlOutput :=
  match email_id, filename with
  | some eid, some fn =>
      if eid.isEmpty || fn.isEmpty then
        ⟨DlResponse.missingParams, cache, 0, [], [], none, none⟩
      else
        let key := eid ++ "_" ++ fn
        match cache.lookup key with
        | some data => ⟨DlResponse.file data, cache, 0, [key], [], some fn, none⟩
        | none =>
            if srv.connectOk then
              match srv.fetchMsg eid with
              | none => ⟨DlResponse.fetchFailed, cache, 1, [key], [], none, none⟩
              | some parts =>
                  match findPart sec dec fn parts with
                  | WalkResult.raised e => ⟨DlResponse.err e, cache, 1, [key], [], none, none⟩
                  | WalkResult.absent => ⟨DlResponse.notFound, cache, 1, [key], [], none, none⟩
                  | WalkResult.found p =>
                      match p.payload with
                      | none => ⟨DlResponse.emptyAttachment, cache, 1, [key], [], none, none⟩
                      | some data =>
                          ⟨DlResponse.file data, (key, data) :: cache, 1, [key], [key], some fn,
                            some (if p.contentType.isEmpty then "application/octet-stream"
                                  else p.contentType)⟩
            else ⟨DlResponse.err MailError.connectionError, cache, 0, [key], [], none, none⟩
  | _, _ => ⟨DlResponse.missingParams, cache, 0, [], [], none, none⟩

/-- A concrete stand-in for `werkzeug.utils.secure_filename`, used to
instantiate witnesses and counterexamples: keep ASCII letters, digits,
dot, dash and underscore, drop every other character (in particular the
path separators). -/
def secure_filename (s : String) : String :=
  String.mk (s.data.filter fun c => c.isAlphanum || c == '.' || c == '-' || c == '_')

/-- A concrete charset decoder for witnesses: any charset decodes the
bytes as the string of their code points. -/
def decEval : CharsetDec := fun _ b => some (String.mk (b.map Char.ofNat))

end GoEmail

deriving instance DecidableEq for Except

namespace GoEmail

/-- A mailbox with one message whose first fetch raises. -/
def srvRaise : ImapServer := ⟨true, ["1"], fun _ => Fetched.raises⟩

/-- A mailbox with one well-formed message. -/
def srvOne : ImapServer :=
  ⟨true, ["1"], fun _ => Fetched.ok ⟨some [⟨FragData.str "A", none⟩], none, none⟩⟩

/-- A mailbox whose only message has no Subject header. -/
def srvNoSubj : ImapServer :=
  ⟨true, ["1"], fun _ => Fetched.ok ⟨none, some "x@y", some "d"⟩⟩

/-- Per-identifier fetch behaviour of a five-message mailbox in which
message `"3"` is malformed (its Subject header is missing) and every
other message `i` carries subject `Si`. -/
def fetchBatch5 : String → Fetched := fun eid =>
  if eid = "3" then Fetched.ok ⟨none, none, none⟩
  else Fetched.ok ⟨some [⟨FragData.str ("S" ++ eid), none⟩], none, none⟩

/-- The five-message mailbox as `MailClient.list_emails` sees it. -/
def srvBatch5 : ImapServer := ⟨true, ["1", "2", "3", "4", "5"], fetchBatch5⟩

/-- The five-message mailbox as the `/listmails` generator sees it. -/
def ssrvBatch5 : StreamServer := ⟨true, true, ["1", "2", "3", "4", "5"], fetchBatch5⟩

/-- A two-message mailbox for the streaming endpoint. -/
def ssrvTwo : StreamServer :=
  ⟨true, true, ["1", "2"],
    fun eid => Fetched.ok ⟨some [⟨FragData.str ("S" ++ eid), none⟩], none, none⟩⟩

/-- A streaming server whose connect/login fails. -/
def ssrvDown : StreamServer := ⟨false, true, ["1"], fun _ => Fetched.raises⟩

/-- A single attachment part: `a.txt`, disposition present, 3-byte
decoded payload. -/
def partA : MimePart :=
  ⟨"application", "application/pdf", true, some [⟨FragData.str "a.txt", none⟩],
    some [10, 20, 30]⟩

/-- A message server whose message `"1"` carries exactly `partA`. -/
def msrvA : MsgServer := ⟨true, fun eid => if eid = "1" then some [partA] else none⟩

/-- A message server that is never reached (used on cache-hit paths). -/
def msrvDown : MsgServer := ⟨false, fun _ => none⟩

/-- Lemma: `runBatch` succeeds exactly by fetching each selected identifier in
order, one summary per identifier. -/
theorem runBatch_forall₂ (dec : CharsetDec) (srv : ImapServer) :
    ∀ l s, runBatch dec srv l = Except.ok s →
      List.Forall₂ (fun n t => fetchSummary dec srv n = Except.ok t) l s := by
  intro l
  induction l with
  | nil =>
      intro s h
      simp only [runBatch] at h
      injection h with h
      subst h
      constructor
  | cons num rest ih =>
      intro s h
      unfold runBatch at h
      cases hf : fetchSummary dec srv num <;> rw [hf] at h
      · exact absurd h (by simp)
      case ok t =>
        cases hr : runBatch dec srv rest <;> rw [hr] at h
        · exact absurd h (by simp)
        case ok r =>
          injection h with h
          subst h
          exact List.Forall₂.cons hf (ih r hr)

/-- For a positive limit, the selected window has at most `limit`
identifiers. -/
theorem sliceLast_length_le (limit : Nat) (xs : List α) (h : 0 < limit) :
    (sliceLast limit xs).length ≤ limit := by
  unfold sliceLast
  rw [if_neg (Nat.pos_iff_ne_zero.mp h)]
  rw [List.length_drop]
  omega

/-- Lemma: `streamInfos` distributes over concatenation of yielded elements. -/
theorem streamInfos_append (a b : List StreamItem) :
    streamInfos (a ++ b) = streamInfos a ++ streamInfos b := by
  induction a with
  | nil => rfl
  | cons x rest ih => cases x <;> simp [streamInfos, ih]

/-- The summaries yielded by the generator's loop are exactly the
successful per-item results, in the order of the selected identifiers. -/
theorem genLoop_infos (dec : CharsetDec) (srv : StreamServer) :
    ∀ (l : List String) (first : Bool),
      streamInfos (genLoop dec srv l first) = l.filterMap (genItem dec srv) := by
  intro l
  induction l with
  | nil => intro first; rfl
  | cons eid rest ih =>
      intro first
      unfold genLoop
      rw [streamInfos_append, streamInfos_append]
      cases h : genItem dec srv eid <;> cases first <;>
        simp [streamInfos, ih, List.filterMap_cons, h]

/-- If any selected identifier's fetch-and-decode fails, the whole
unguarded batch loop fails. -/
theorem runBatch_not_ok (dec : CharsetDec) (srv : ImapServer) :
    ∀ (l : List String) (num : String), num ∈ l →
      isOkE (fetchSummary dec srv num) = false →
      isOkE (runBatch dec srv l) = false := by
  intro l
  induction l with
  | nil => intro num h; exact absurd h (List.not_mem_nil num)
  | cons n rest ih =>
      intro num hmem hbad
      unfold runBatch
      rcases List.mem_cons.mp hmem with heq | htail
      · subst heq
        cases hf : fetchSummary dec srv num <;> rw [hf] at hbad
        · simp [isOkE]
        · exact absurd hbad (by simp [isOkE])
      · cases hf : fetchSummary dec srv n
        · simp [isOkE]
        · have := ih num htail hbad
          cases hr : runBatch dec srv rest <;> rw [hr] at this
          · simp [isOkE]
          · exact absurd this (by simp [isOkE])

/-- A part found by `/download_attachment`'s walk belongs to the message
and its decoded, sanitized filename equals the requested one. -/
theorem findPart_found_spec (sec : String → String) (dec : CharsetDec) (fn : String) :
    ∀ (parts : List MimePart) (p : MimePart),
      findPart sec dec fn parts = WalkResult.found p →
      p ∈ parts ∧ ∃ frags nm, p.filename = some frags ∧
        decodeFirstFragment dec frags = Except.ok nm ∧ sec nm = fn := by
  intro parts
  induction parts with
  | nil => intro p h; exact absurd h (by simp [findPart])
  | cons q rest ih =>
      intro p h
      unfold findPart at h
      split at h
      · obtain ⟨hmem, hrest⟩ := ih p h
        exact ⟨List.mem_cons_of_mem q hmem, hrest⟩
      · split at h
        · split at h
          · obtain ⟨hmem, hrest⟩ := ih p h
            exact ⟨List.mem_cons_of_mem q hmem, hrest⟩
          · rename_i frags hfn
            split at h
            · exact absurd h (by simp)
            · rename_i nm hdec
              split at h
              · rename_i hs
                injection h with h
                subst h
                exact ⟨List.mem_cons_self q rest, frags, nm, hfn, hdec, hs⟩
              · obtain ⟨hmem, hrest⟩ := ih p h
                exact ⟨List.mem_cons_of_mem q hmem, hrest⟩
        · obtain ⟨hmem, hrest⟩ := ih p h
          exact ⟨List.mem_cons_of_mem q hmem, hrest⟩

/-- Every manifest entry produced by `/list_attachments` comes from some
part of the message, and its reported size is the rounded decoded byte
length of that part. -/
theorem attachmentEntries_mem (sec : String → String) (dec : CharsetDec) :
    ∀ (parts : List MimePart) (l : List AttachmentInfo) (e : AttachmentInfo),
      attachmentEntries sec dec parts = Except.ok l → e ∈ l →
      ∃ p, p ∈ parts ∧ e.size_kb = size_kb_of (payloadSize p) := by
  intro parts
  induction parts with
  | nil =>
      intro l e h he
      simp only [attachmentEntries] at h
      injection h with h
      subst h
      exact absurd he (List.not_mem_nil e)
  | cons q rest ih =>
      intro l e h he
      unfold attachmentEntries at h
      split at h
      · obtain ⟨p, hmem, hsz⟩ := ih l e h he
        exact ⟨p, List.mem_cons_of_mem q hmem, hsz⟩
      · split at h
        · split at h
          · obtain ⟨p, hmem, hsz⟩ := ih l e h he
            exact ⟨p, List.mem_cons_of_mem q hmem, hsz⟩
          · rename_i frags hfn
            split at h
            · exact absurd h (by simp)
            · rename_i nm hdec
              split at h
              · exact absurd h (by simp)
              · rename_i r hr
                injection h with h
                subst h
                rcases List.mem_cons.mp he with heq | htail
                · subst heq
                  exact ⟨q, List.mem_cons_self q rest, rfl⟩
                · obtain ⟨p, hmem, hsz⟩ := ih r e hr htail
                  exact ⟨p, List.mem_cons_of_mem q hmem, hsz⟩
        · obtain ⟨p, hmem, hsz⟩ := ih l e h he
          exact ⟨p, List.mem_cons_of_mem q hmem, hsz⟩

/-- Claim C1 is false as stated: on a connected session whose single
message fetch raises, `list_emails` propagates the exception and its body
performs zero logout calls — the connection opened by connect is not
closed on that exit path. -/
theorem C1_counterexample :
    srvRaise.connectOk = true ∧
    (list_emails decEval srvRaise 10).1 = Except.error MailError.fetchError ∧
    (list_emails decEval srvRaise 10).2 = 0 := by
  decide

/-- Claim C1 amended: only `list_attachments` (cleanup in `finally`)
closes the connection on every exit path; `list_emails`, `list_headers`
and `send_email` reach their logout/quit line only on the success path. -/
theorem C1_amended (dec : CharsetDec) (srv : ImapServer) (limit : Nat)
    (ssrv : SmtpServer) (to_ subject body : Option String)
    (sec : String → String) (msrv : MsgServer) (eid : String) :
    (list_emails dec srv limit).2 =
      (if srv.connectOk && isOkE (list_emails dec srv limit).1 then 1 else 0) ∧
    (list_headers dec srv limit).2 =
      (if srv.connectOk && isOkE (list_headers dec srv limit).1 then 1 else 0) ∧
    (send_mail ssrv to_ subject body).2.2 =
      (if (send_mail ssrv to_ subject body).1 = SendOutcome.sent then 1 else 0) ∧
    (list_attachments sec dec msrv (some eid)).2 =
      (if !eid.isEmpty && msrv.connectOk then 1 else 0) := by
  refine ⟨?_, ?_, ?_, ?_⟩
  · cases hc : srv.connectOk
    · simp [list_emails, hc]
    · cases hr : runBatch dec srv (sliceLast limit srv.ids) <;>
        simp [list_emails, hc, hr, isOkE]
  · cases hc : srv.connectOk
    · simp [list_headers, hc]
    · cases hr : runHeaderBatch dec srv (sliceLast limit srv.ids) <;>
        simp [list_headers, hc, hr, isOkE]
  · cases ht : (truthy to_ && truthy subject && truthy body)
    · simp [send_mail, ht]
    · cases hco : ssrv.connectOk
      · simp [send_mail, ht, hco]
      · cases hs : ssrv.sendOk <;> simp [send_mail, ht, hco, hs]
  · cases he : eid.isEmpty
    · cases hc : msrv.connectOk
      · simp [list_attachments, he, hc]
      · cases hf : msrv.fetchMsg eid
        · simp [list_attachments, he, hc, hf]
        · rename_i parts
          cases ha : attachmentEntries sec dec parts <;>
            simp [list_attachments, he, hc, hf, ha]
    · simp [list_attachments, he]

/-- Claim C7 is false as stated: on a header value made of two encoded
words, the source decodes only the first fragment and discards the rest,
so it does not yield the plain decoded string of the whole value. -/
theorem C7_counterexample :
    extractSubject decEval
        (some [⟨FragData.bytes [72], none⟩, ⟨FragData.bytes [105], none⟩]) =
      Except.ok "H" ∧
    specHeaderDecode decEval
        [⟨FragData.bytes [72], none⟩, ⟨FragData.bytes [105], none⟩] =
      Except.ok "Hi" ∧
    ("H" : String) ≠ "Hi" := by
  decide

/-- Claim C7 amended: the decoder yields the decode of only the first
fragment of the header value — using its declared charset, and falling
back to UTF-8 when none is declared — and discards all later fragments. -/
theorem C7_amended (dec : CharsetDec) (f : Fragment) (rest : List Fragment)
    (b : Bytes) (c : String) :
    extractSubject dec (some (f :: rest)) = extractSubject dec (some [f]) ∧
    extractSubject dec (some [⟨FragData.bytes b, some c⟩]) =
      Option.elim (dec c b) (Except.error MailError.decodeError) Except.ok ∧
    extractSubject dec (some [⟨FragData.bytes b, none⟩]) =
      Option.elim (dec "utf-8" b) (Except.error MailError.decodeError) Except.ok := by
  refine ⟨rfl, ?_, ?_⟩
  · cases h : dec c b <;>
      simp [extractSubject, decodeFirstFragment, decodeFragment, h, Option.elim]
  · cases h : dec "utf-8" b <;>
      simp [extractSubject, decodeFirstFragment, decodeFragment, h, Option.elim]

/-- Claim C8: a send request missing the destination, subject or body
fails validation with the missing-fields error before any SMTP connection
is attempted. -/
theorem C8 (srv : SmtpServer) (to_ subject body : Option String)
    (h : to_ = none ∨ subject = none ∨ body = none) :
    (send_mail srv to_ subject body).1 = SendOutcome.missingFields ∧
    (send_mail srv to_ subject body).2.1 = 0 := by
  have ht : (truthy to_ && truthy subject && truthy body) = false := by
    rcases h with h | h | h <;> subst h <;> simp [truthy]
  exact ⟨by simp [send_mail, ht], by simp [send_mail, ht]⟩

/-- Witness for C8 at a request with no destination address. -/
theorem C8_witness :
    ((none : Option String) = none ∨ (some "s" : Option String) = none ∨
      (some "b" : Option String) = none) ∧
    ((send_mail ⟨true, true⟩ none (some "s") (some "b")).1 = SendOutcome.missingFields ∧
      (send_mail ⟨true, true⟩ none (some "s") (some "b")).2.1 = 0) :=
  ⟨Or.inl rfl, C8 ⟨true, true⟩ none (some "s") (some "b") (Or.inl rfl)⟩

/-- Claim C10: a fetched message whose Subject header is absent makes the
subject-decoding step raise (`decode_header(None)`), so `list_emails` and
`list_headers` abort with an error instead of returning a summary with an
empty subject. -/
theorem C10 :
    srvNoSubj.fetch "1" = Fetched.ok ⟨none, some "x@y", some "d"⟩ ∧
    (list_emails decEval srvNoSubj 10).1 = Except.error MailError.typeError ∧
    (list_headers decEval srvNoSubj 10).1 = Except.error MailError.typeError := by
  decide

/-- Claim C2 is false as stated: with limit 0 the batch returns every
message of a non-empty mailbox (Python `ids[-0:]` is the whole list), and
the streaming endpoint ignores its limit parameter (here limit 1 yields 2
entries). -/
theorem C2_counterexample :
    (list_emails decEval srvOne 0).1 = Except.ok [⟨"A", none, none⟩] ∧
    ¬((1 : Nat) ≤ 0) ∧
    (streamInfos (generate decEval ssrvTwo 1)).length = 2 ∧
    ¬((2 : Nat) ≤ 1) := by
  decide

/-- Claim C2 amended: for every positive limit the batch returns at most
`limit` entries, one per selected identifier in ascending selected-window
order; for limit 0 the batch returns all entries, and the streaming
endpoint ignores its limit and returns at most 10 entries. -/
theorem C2_amended (dec : CharsetDec) (srv : ImapServer) (ssrv : StreamServer)
    (limit : Nat) (s : List Summary)
    (hl : 0 < limit) (h : (list_emails dec srv limit).1 = Except.ok s) :
    s.length ≤ limit ∧
    List.Forall₂ (fun n t => fetchSummary dec srv n = Except.ok t)
      (sliceLast limit srv.ids) s ∧
    (streamInfos (generate dec ssrv limit)).length ≤ 10 := by
  have hbatch : runBatch dec srv (sliceLast limit srv.ids) = Except.ok s := by
    cases hc : srv.connectOk
    · simp [list_emails, hc] at h
    · cases hr : runBatch dec srv (sliceLast limit srv.ids) with
      | error e => simp [list_emails, hc, hr] at h
      | ok es =>
          simp [list_emails, hc, hr] at h
          subst h
          rfl
  have hf := runBatch_forall₂ dec srv _ s hbatch
  refine ⟨?_, hf, ?_⟩
  · have hlen := List.Forall₂.length_eq hf
    have := sliceLast_length_le limit srv.ids hl
    omega
  · cases hcs : ssrv.connectOk
    · simp [generate, hcs, streamInfos]
    · cases hss : ssrv.searchOk
      · simp [generate, hcs, hss, streamInfos]
      · rw [generate]
        simp only [hcs, hss, if_true]
        rw [show streamInfos (StreamItem.openBracket ::
              (genLoop dec ssrv (sliceLast 10 ssrv.ids) true ++ [StreamItem.closeBracket])) =
            streamInfos (genLoop dec ssrv (sliceLast 10 ssrv.ids) true ++
              [StreamItem.closeBracket]) from rfl]
        rw [streamInfos_append, genLoop_infos]
        simp [streamInfos]
        calc ((sliceLast 10 ssrv.ids).filterMap (genItem dec ssrv)).length
            ≤ (sliceLast 10 ssrv.ids).length := List.length_filterMap_le _ _
          _ ≤ 10 := sliceLast_length_le 10 ssrv.ids (by omega)

/-- Witness for C2's amended claim at a one-message mailbox with limit 1
and a two-message streaming mailbox. -/
theorem C2_amended_witness :
    0 < 1 ∧ (list_emails decEval srvOne 1).1 = Except.ok [⟨"A", none, none⟩] ∧
    (([(⟨"A", none, none⟩ : Summary)].length ≤ 1 ∧
      List.Forall₂ (fun n t => fetchSummary decEval srvOne n = Except.ok t)
        (sliceLast 1 srvOne.ids) [⟨"A", none, none⟩] ∧
      (streamInfos (generate decEval ssrvTwo 1)).length ≤ 10)) := by
  have hEq : (list_emails decEval srvOne 1).1 = Except.ok [⟨"A", none, none⟩] := by decide
  exact ⟨Nat.one_pos, hEq,
    C2_amended decEval srvOne ssrvTwo 1 [⟨"A", none, none⟩] Nat.one_pos hEq⟩

/-- Claim C3 is false as stated for the batch listing: on a batch of five
identifiers where message 3 is malformed (missing Subject), `list_emails`
does not return four summaries — the whole call fails with the raised
error (and never reaches its logout). -/
theorem C3_counterexample :
    srvBatch5.ids = ["1", "2", "3", "4", "5"] ∧
    (list_emails decEval srvBatch5 5).1 = Except.error MailError.typeError ∧
    (list_emails decEval srvBatch5 5).2 = 0 := by
  decide

/-- Claim C3 amended: in the batch `list_emails` one failing message
aborts the whole call; only the streaming listing skips the bad message
and still yields the other summaries (five identifiers with message 3
malformed yield four summaries). -/
theorem C3_amended (dec : CharsetDec) (srv : ImapServer) (limit : Nat) (num : String)
    (h1 : num ∈ sliceLast limit srv.ids)
    (h2 : isOkE (fetchSummary dec srv num) = false) :
    isOkE (list_emails dec srv limit).1 = false ∧
    streamInfos (generate decEval ssrvBatch5 5) =
      [⟨"1", "S1", none, none⟩, ⟨"2", "S2", none, none⟩,
        ⟨"4", "S4", none, none⟩, ⟨"5", "S5", none, none⟩] := by
  constructor
  · cases hc : srv.connectOk
    · simp [list_emails, hc, isOkE]
    · have hbad := runBatch_not_ok dec srv (sliceLast limit srv.ids) num h1 h2
      cases hr : runBatch dec srv (sliceLast limit srv.ids) <;> rw [hr] at hbad
      · simp [list_emails, hc, hr, isOkE]
      · exact absurd hbad (by simp [isOkE])
  · decide

/-- Witness for C3's amended claim at the five-message mailbox whose
message 3 is malformed. -/
theorem C3_amended_witness :
    ("3" ∈ sliceLast 5 srvBatch5.ids) ∧
    isOkE (fetchSummary decEval srvBatch5 "3") = false ∧
    (isOkE (list_emails decEval srvBatch5 5).1 = false ∧
      streamInfos (generate decEval ssrvBatch5 5) =
        [⟨"1", "S1", none, none⟩, ⟨"2", "S2", none, none⟩,
          ⟨"4", "S4", none, none⟩, ⟨"5", "S5", none, none⟩]) := by
  have h1 : "3" ∈ sliceLast 5 srvBatch5.ids := by decide
  have h2 : isOkE (fetchSummary decEval srvBatch5 "3") = false := by decide
  exact ⟨h1, h2, C3_amended decEval srvBatch5 5 "3" h1 h2⟩

/-- Claim C9: a connect/login failure at the start of the streaming
listing yields exactly one error element and the sequence ends; after a
successful start, the yielded summaries are exactly the per-item successes
over the selected identifiers — a per-item failure is swallowed and the
sequence continues. -/
theorem C9 (dec : CharsetDec) (srvA srvB : StreamServer) (limit : Nat)
    (hA : srvA.connectOk = false)
    (hB1 : srvB.connectOk = true) (hB2 : srvB.searchOk = true) :
    generate dec srvA limit = [StreamItem.errorItem MailError.connectionError] ∧
    streamInfos (generate dec srvB limit) =
      (sliceLast 10 srvB.ids).filterMap (genItem dec srvB) := by
  constructor
  · simp [generate, hA]
  · rw [generate]
    simp only [hB1, hB2, if_true]
    rw [show streamInfos (StreamItem.openBracket ::
          (genLoop dec srvB (sliceLast 10 srvB.ids) true ++ [StreamItem.closeBracket])) =
        streamInfos (genLoop dec srvB (sliceLast 10 srvB.ids) true ++
          [StreamItem.closeBracket]) from rfl]
    rw [streamInfos_append, genLoop_infos]
    simp [streamInfos]

/-- Witness for C9 at a failing and a succeeding streaming mailbox. -/
theorem C9_witness :
    ssrvDown.connectOk = false ∧ ssrvTwo.connectOk = true ∧ ssrvTwo.searchOk = true ∧
    (generate decEval ssrvDown 5 = [StreamItem.errorItem MailError.connectionError] ∧
      streamInfos (generate decEval ssrvTwo 5) =
        (sliceLast 10 ssrvTwo.ids).filterMap (genItem decEval ssrvTwo)) :=
  ⟨rfl, rfl, rfl, C9 decEval ssrvDown ssrvTwo 5 rfl rfl rfl⟩

/-- Claim C4: if a first `download_attachment` call on some (identifier,
filename) pair returns file content, a second call with the same pair on
the resulting cache performs no IMAP fetch and returns the identical
bytes. -/
theorem C4 (sec : String → String) (dec : CharsetDec) (srv : MsgServer)
    (c : AttachmentsCache) (eid fn : String) (data : Bytes)
    (h : (download_attachment sec dec srv c (some eid) (some fn)).response =
      DlResponse.file data) :
    (download_attachment sec dec srv
        (download_attachment sec dec srv c (some eid) (some fn)).cache'
        (some eid) (some fn)).fetchCount = 0 ∧
    (download_attachment sec dec srv
        (download_attachment sec dec srv c (some eid) (some fn)).cache'
        (some eid) (some fn)).response = DlResponse.file data := by
  cases he : (eid.isEmpty || fn.isEmpty)
  case true => simp [download_attachment, he] at h
  case false =>
    cases hl : c.lookup (eid ++ "_" ++ fn) with
    | some d =>
        have hd : d = data := by
          simp [download_attachment, he, hl] at h
          exact h
        subst hd
        constructor <;> simp [download_attachment, he, hl]
    | none =>
        cases hc : srv.connectOk
        case false => simp [download_attachment, he, hl, hc] at h
        case true =>
          cases hf : srv.fetchMsg eid with
          | none => simp [download_attachment, he, hl, hc, hf] at h
          | some parts =>
              cases hw : findPart sec dec fn parts with
              | raised e2 => simp [download_attachment, he, hl, hc, hf, hw] at h
              | absent => simp [download_attachment, he, hl, hc, hf, hw] at h
              | found p =>
                  cases hp : p.payload with
                  | none => simp [download_attachment, he, hl, hc, hf, hw, hp] at h
                  | some d =>
                      have hd : d = data := by
                        simp [download_attachment, he, hl, hc, hf, hw, hp] at h
                        exact h
                      subst hd
                      have hcache :
                          (download_attachment sec dec srv c (some eid) (some fn)).cache' =
                            (eid ++ "_" ++ fn, d) :: c := by
                        simp [download_attachment, he, hl, hc, hf, hw, hp]
                      rw [hcache]
                      have hl2 : ((eid ++ "_" ++ fn, d) :: c).lookup (eid ++ "_" ++ fn) =
                          some d := by
                        simp [List.lookup]
                      constructor <;> simp [download_attachment, he, hl2]

/-- Witness for C4: a first download of `a.txt` from the one-attachment
message, then a repeat served from the cache. -/
theorem C4_witness :
    (download_attachment secure_filename decEval msrvA [] (some "1")
        (some "a.txt")).response = DlResponse.file [10, 20, 30] ∧
    ((download_attachment secure_filename decEval msrvA
        (download_attachment secure_filename decEval msrvA [] (some "1")
          (some "a.txt")).cache'
        (some "1") (some "a.txt")).fetchCount = 0 ∧
      (download_attachment secure_filename decEval msrvA
        (download_attachment secure_filename decEval msrvA [] (some "1")
          (some "a.txt")).cache'
        (some "1") (some "a.txt")).response = DlResponse.file [10, 20, 30]) := by
  have h : (download_attachment secure_filename decEval msrvA [] (some "1")
      (some "a.txt")).response = DlResponse.file [10, 20, 30] := by decide
  exact ⟨h, C4 secure_filename decEval msrvA [] "1" "a.txt" [10, 20, 30] h⟩

/-- Claim C5 is false as stated: the cache lookup key and the cache-hit
download name are built from the caller-provided filename directly —
here `../../x`, which its own sanitization would have changed. -/
theorem C5_counterexample :
    (download_attachment secure_filename decEval msrvDown [("1_../../x", [9])]
        (some "1") (some "../../x")).lookupKeys = ["1_../../x"] ∧
    (download_attachment secure_filename decEval msrvDown [("1_../../x", [9])]
        (some "1") (some "../../x")).downloadName = some "../../x" ∧
    secure_filename "../../x" ≠ "../../x" := by
  decide

/-- Claim C5 amended: every cache lookup and store of
`download_attachment` uses the raw key `email_id + "_" + filename` with
the caller-provided filename, and the download name is that raw filename;
sanitization is applied only to part filenames during matching, so a
store can only happen when the caller-provided filename equals some
part's sanitized decoded filename. -/
theorem C5_amended (sec : String → String) (dec : CharsetDec) (srv : MsgServer)
    (c : AttachmentsCache) (eid fn : String) :
    ((download_attachment sec dec srv c (some eid) (some fn)).lookupKeys.all
        (fun k => k == eid ++ "_" ++ fn)) = true ∧
    ((download_attachment sec dec srv c (some eid) (some fn)).storeKeys.all
        (fun k => k == eid ++ "_" ++ fn)) = true ∧
    ((download_attachment sec dec srv c (some eid) (some fn)).downloadName = none ∨
      (download_attachment sec dec srv c (some eid) (some fn)).downloadName = some fn) ∧
    ((download_attachment sec dec srv c (some eid) (some fn)).storeKeys = [] ∨
      ∃ parts p frags nm, srv.fetchMsg eid = some parts ∧ p ∈ parts ∧
        p.filename = some frags ∧ decodeFirstFragment dec frags = Except.ok nm ∧
        sec nm = fn) := by
  cases he : (eid.isEmpty || fn.isEmpty)
  case true => refine ⟨?_, ?_, ?_, ?_⟩ <;> simp [download_attachment, he]
  case false =>
    cases hl : c.lookup (eid ++ "_" ++ fn) with
    | some d => refine ⟨?_, ?_, ?_, ?_⟩ <;> simp [download_attachment, he, hl]
    | none =>
        cases hc : srv.connectOk
        case false =>
          refine ⟨?_, ?_, ?_, ?_⟩ <;> simp [download_attachment, he, hl, hc]
        case true =>
          cases hf : srv.fetchMsg eid with
          | none =>
              refine ⟨?_, ?_, ?_, ?_⟩ <;> simp [download_attachment, he, hl, hc, hf]
          | some parts =>
              cases hw : findPart sec dec fn parts with
              | raised e2 =>
                  refine ⟨?_, ?_, ?_, ?_⟩ <;>
                    simp [download_attachment, he, hl, hc, hf, hw]
              | absent =>
                  refine ⟨?_, ?_, ?_, ?_⟩ <;>
                    simp [download_attachment, he, hl, hc, hf, hw]
              | found p =>
                  cases hp : p.payload with
                  | none =>
                      refine ⟨?_, ?_, ?_, ?_⟩ <;>
                        simp [download_attachment, he, hl, hc, hf, hw, hp]
                  | some d =>
                      refine ⟨?_, ?_, ?_, ?_⟩
                      · simp [download_attachment, he, hl, hc, hf, hw, hp]
                      · simp [download_attachment, he, hl, hc, hf, hw, hp]
                      · simp [download_attachment, he, hl, hc, hf, hw, hp]
                      · right
                        obtain ⟨hmem, frags, nm, hfn, hdec, hs⟩ :=
                          findPart_found_spec sec dec fn parts p hw
                        exact ⟨parts, p, frags, nm, rfl, hmem, hfn, hdec, hs⟩

/-- Claim C6: every size the attachment manifest reports is the decoded
byte length of the corresponding part divided by 1024 and rounded to two
decimals (stated in exact hundredths of a kilobyte), and a decoded
payload of 12,345 bytes is reported as 12.06 kB. -/
theorem C6 (sec : String → String) (dec : CharsetDec) (srv : MsgServer) (eid : String)
    (l : List AttachmentInfo) (e : AttachmentInfo)
    (h : (list_attachments sec dec srv (some eid)).1 = AttListResult.ok l)
    (he : e ∈ l) :
    (∃ parts, srv.fetchMsg eid = some parts ∧
      ∃ p, p ∈ parts ∧ e.size_kb = size_kb_of (payloadSize p)) ∧
    size_kb_of 12345 = 1206 := by
  refine ⟨?_, by decide⟩
  cases hie : eid.isEmpty
  case true => simp [list_attachments, hie] at h
  case false =>
    cases hc : srv.connectOk
    case false => simp [list_attachments, hie, hc] at h
    case true =>
      cases hf : srv.fetchMsg eid with
      | none => simp [list_attachments, hie, hc, hf] at h
      | some parts =>
          cases ha : attachmentEntries sec dec parts with
          | error e2 => simp [list_attachments, hie, hc, hf, ha] at h
          | ok l2 =>
              simp [list_attachments, hie, hc, hf, ha] at h
              subst h
              obtain ⟨p, hmem, hsz⟩ := attachmentEntries_mem sec dec parts _ e ha he
              exact ⟨parts, rfl, p, hmem, hsz⟩

/-- Witness for C6 at the one-attachment message with a 3-byte payload. -/
theorem C6_witness :
    (list_attachments secure_filename decEval msrvA (some "1")).1 =
      AttListResult.ok [⟨"a.txt", 0, "application/pdf"⟩] ∧
    (⟨"a.txt", 0, "application/pdf"⟩ : AttachmentInfo) ∈
      [(⟨"a.txt", 0, "application/pdf"⟩ : AttachmentInfo)] ∧
    ((∃ parts, msrvA.fetchMsg "1" = some parts ∧
        ∃ p, p ∈ parts ∧
          (⟨"a.txt", 0, "application/pdf"⟩ : AttachmentInfo).size_kb =
            size_kb_of (payloadSize p)) ∧
      size_kb_of 12345 = 1206) := by
  have h : (list_attachments secure_filename decEval msrvA (some "1")).1 =
      AttListResult.ok [⟨"a.txt", 0, "application/pdf"⟩] := by decide
  have he : (⟨"a.txt", 0, "application/pdf"⟩ : AttachmentInfo) ∈
      [(⟨"a.txt", 0, "application/pdf"⟩ : AttachmentInfo)] := List.mem_singleton.mpr rfl
  exact ⟨h, he, C6 secure_filename decEval msrvA "1" _ _ h he⟩

end GoEmail
